import Mathlib

/-!
Verification of the stock_analyzer repository (src/stock_analyzer.py)
against its natural-language specification.

Shallow embedding conventions:
* prices and derived metrics are exact rationals (`ℚ`); the standard
  deviation, whose value needs a square root, lives in `ℝ`;
* a pandas cell that may be NaN / absent is an `Option`: `none` models both
  a NaN float (the local `ma_50`/`ma_200` variables, a NaN `std()`) and the
  Python `None` the returned dict stores for an absent moving average;
* fallible Python code (a `raise`, an uncaught `ZeroDivisionError`) is an
  `Except`;
* a DataFrame is a `List` of rows, kept in the original order.
-/

set_option maxHeartbeats 1000000

/-- A raw row as downloaded (yfinance): High, Low and a Close that may be
missing (NaN in the DataFrame).  Only these three columns are read by the
program.  High/Low are taken as present, as the script never guards them. -/
structure RawRow where
  high : ℚ
  low : ℚ
  close : Option ℚ
  deriving DecidableEq

/-- A cleaned row, after `df.dropna(subset=["Close"])` (line 16): the close
is guaranteed present. -/
structure Row where
  high : ℚ
  low : ℚ
  close : ℚ
  deriving DecidableEq

/-- The trend labels assigned at lines 38-53 of src/stock_analyzer.py.
Both `elif pd.notna(ma_50)` and the final `else` assign the string
"INSUFFICIENT_DATA", so the closed enum has four values. -/
inductive Trend where
  | bullish
  | neutral
  | bearish
  | insufficientData
  deriving DecidableEq

/-- The distinguishable failures of `safe_download`/`analyze_ticker`:
* `noData`: the `ValueError` of line 14 (empty download);
* `emptySeries`: the `ValueError` of line 18 (no Close prices left);
* `indexError`: the `IndexError` `.iloc[-1]` would raise on an empty frame
  (unreachable through `safe_download`, which never returns an empty frame);
* `zeroDivision`: the builtin `ZeroDivisionError` the division at line 31
  raises when the first close is `0.0`;
* `invalidSeries`: the typed `InvalidSeriesError` of the specification's
  error taxonomy (§7).  The script defines no such error and never raises
  it; the constructor exists so that statements can compare the code's
  behaviour with the specification's. -/
inductive AnalyzeError where
  | noData
  | emptySeries
  | indexError
  | zeroDivision
  | invalidSeries
  deriving DecidableEq

/-- Failures of the best/worst selection (lines 146-147):
* `argmaxEmpty`: the `ValueError` ("attempt to get argmax of an empty
  sequence") pandas' `idxmax`/`idxmin` raise when every value of the column
  is NaN (NaN cells are skipped, so nothing remains);
* `degenerateMetric`: the typed `DegenerateMetricError` of the
  specification's taxonomy (§7).  The script defines no such error; the
  constructor exists only for comparison statements. -/
inductive AggError where
  | argmaxEmpty
  | degenerateMetric
  deriving DecidableEq

/-- Everything `analyze_ticker` computes for one symbol (the local
variables of lines 26-55).  The returned dict (lines 73-82) exposes
`ticker`, `latestPrice`, `returnPct` ("1Y Return %"), `volatilityPct`
("Volatility %"), `priceRange`, `ma50` ("50D MA"), `ma200` ("200D MA") and
`trend`; `startPrice`, `highestPrice` and `lowestPrice` are computed and
printed (lines 60-63) but are not keys of the dict.  `ma50`/`ma200` are
`none` exactly when the Python dict stores `None` (lines 79-80);
`volatilityPct` is `none` exactly when the float is NaN. -/
structure Analysis where
  ticker : String
  latestPrice : ℚ
  startPrice : ℚ
  highestPrice : ℚ
  lowestPrice : ℚ
  returnPct : ℚ
  volatilityPct : Option ℝ
  priceRange : ℚ
  ma50 : Option ℚ
  ma200 : Option ℚ
  trend : Trend

/-- `df.dropna(subset=["Close"])` (line 16): drop the rows whose Close is
missing, keeping the original order. -/
def cleanRows (data : List RawRow) : List Row :=
  data.filterMap (fun r =>
    r.close.map (fun c => { high := r.high, low := r.low, close := c }))

/-- `safe_download` (lines 6-20), given the frame the external `yf.download`
returned (`[]` models both `None` and an empty frame): raise for an empty
download (line 14), drop rows without a Close (line 16), raise if nothing
remains (line 18), otherwise hand the cleaned frame on. -/
def safeDownload (data : List RawRow) : Except AnalyzeError (List Row) :=
  if data = [] then .error .noData
  else
    let cleaned := cleanRows data
    if cleaned = [] then .error .emptySeries else .ok cleaned

/-- Arithmetic mean of a list of rationals (pandas `.mean()` over a
window). -/
def listMean (l : List ℚ) : ℚ := l.sum / l.length

/-- Bessel-corrected sample variance, divisor `n - 1` (the variance under
pandas `.std()`, whose default is `ddof=1`). -/
def sampleVar (l : List ℚ) : ℚ :=
  (l.map (fun x => (x - listMean l) ^ 2)).sum / ((l.length : ℚ) - 1)

/-- pandas `Series.std()` (line 33): NaN entries are skipped (`skipna`
defaults to true); with fewer than 2 remaining values the divisor `n - 1`
degenerates and the result is NaN (`none`); otherwise it is the square root
of the Bessel-corrected sample variance. -/
noncomputable def seriesStd (xs : List (Option ℚ)) : Option ℝ :=
  let v := xs.filterMap id
  if v.length < 2 then none else some (Real.sqrt ((sampleVar v : ℚ) : ℝ))

/-- Tail of pandas `Series.pct_change()`: each entry is
`(close[i] - close[i-1]) / close[i-1]` with `prev` carrying `close[i-1]`.
numpy elementwise division raises no exception; a zero previous close gives
a non-finite float in reality, so volatility statements assume nonzero
closes. -/
def pctChangeAux (prev : ℚ) : List ℚ → List (Option ℚ)
  | [] => []
  | c :: rest => some ((c - prev) / prev) :: pctChangeAux c rest

/-- `df["Close"].pct_change()` (line 32): same length as the input, NaN
(`none`) in the first slot, then the relative change of consecutive
closes. -/
def pctChange : List ℚ → List (Option ℚ)
  | [] => []
  | c :: rest => none :: pctChangeAux c rest

/-- `Series.rolling(window=w).mean()` (lines 35-36): entry `i` is NaN until
the window is full (`i + 1 < w`), then the mean of entries
`i - w + 1 .. i`. -/
def rollingMean (w : Nat) (l : List ℚ) : List (Option ℚ) :=
  (List.range l.length).map (fun i =>
    if w ≤ i + 1 then some (listMean ((l.take (i + 1)).drop (i + 1 - w))) else none)

/-- The trend decision of lines 38-53, a pure function of the latest price
and the two (possibly NaN) moving averages:
`if pd.notna(ma_50) and pd.notna(ma_200): ... elif pd.notna(ma_50): ...
else: ...`. -/
def trendOf (latest : ℚ) (m50 m200 : Option ℚ) : Trend :=
  match m50, m200 with
  | some a, some b =>
      if latest > a ∧ a > b then .bullish
      else if latest > a then .neutral
      else .bearish
  | some _, none => .insufficientData
  | none, _ => .insufficientData

/-- The pure computations of `analyze_ticker` (lines 26-55 and the dict of
lines 73-82) on an already-cleaned nonempty frame:
latest/start close (`iloc[-1]`, `iloc[0]`), High maximum, Low minimum,
percentage return, volatility `std() * 100`, the last rolling mean of
window 50/200 guarded by `len(df) >= 50`/`>= 200` (NaN i.e. `none`
otherwise), trend, and the price range.  The `getD 0` defaults are never
exercised by `analyzeCleaned`, which guards the empty frame. -/
noncomputable def buildAnalysis (t : String) (df : List Row) : Analysis :=
  let cs := df.map Row.close
  let latest := cs.getLastD 0
  let start := cs.headD 0
  let hi := ((df.map Row.high).max?).getD 0
  let lo := ((df.map Row.low).min?).getD 0
  let m50 := if 50 ≤ df.length then (rollingMean 50 cs).getLastD none else none
  let m200 := if 200 ≤ df.length then (rollingMean 200 cs).getLastD none else none
  { ticker := t
    latestPrice := latest
    startPrice := start
    highestPrice := hi
    lowestPrice := lo
    returnPct := (latest - start) / start * 100
    volatilityPct := (seriesStd (pctChange cs)).map (fun s => s * 100)
    priceRange := hi - lo
    ma50 := m50
    ma200 := m200
    trend := trendOf latest m50 m200 }

/-- The body of `analyze_ticker` after `safe_download` (lines 26-82), with
its two failure modes as control flow: `.iloc[-1]` on an empty frame would
raise `IndexError` (line 26) and the division at line 31 raises
`ZeroDivisionError` when the first close is zero; otherwise every metric is
computed and the record returned. -/
noncomputable def analyzeCleaned (t : String) (df : List Row) : Except AnalyzeError Analysis :=
  if df = [] then .error .indexError
  else if (df.map Row.close).headD 0 = 0 then .error .zeroDivision
  else .ok (buildAnalysis t df)

/-- `analyze_ticker` (lines 23-82): download-and-clean, then analyze. -/
noncomputable def analyzeTicker (t : String) (data : List RawRow) : Except AnalyzeError Analysis :=
  (safeDownload data).bind (analyzeCleaned t)

/-- `str(e)` of each modeled exception: the two `ValueError` messages of
lines 14 and 18, Python's `ZeroDivisionError` text, pandas' `IndexError`
text, and a placeholder for the specification-only `InvalidSeriesError`
(never constructed by the code). -/
def errMessage : AnalyzeError → String
  | .noData => "No data returned (invalid ticker or no recent trading data)."
  | .emptySeries => "Data returned but missing Close prices."
  | .indexError => "single positional indexer is out-of-bounds"
  | .zeroDivision => "float division by zero"
  | .invalidSeries => "invalid series"

/-- The per-symbol loop of `main` (lines 127-132), parametrized by the
external data source `dataOf`: each ticker is analyzed inside
`try: results.append(...) except Exception as e: failed.append((t, str(e)))`,
so a failure becomes a `(symbol, reason)` pair and the loop moves on.
Returns `(results, failed)`, both in input order. -/
noncomputable def processTickers (dataOf : String → List RawRow) :
    List String → List Analysis × List (String × String)
  | [] => ([], [])
  | t :: rest =>
    let p := processTickers dataOf rest
    match analyzeTicker t (dataOf t) with
    | .ok r => (r :: p.1, p.2)
    | .error e => (p.1, (t, errMessage e) :: p.2)

/-- Positional `Series.idxmax`-style scan, parametrized by the strict
comparison `r` under which an entry loses to the current best: returns the
index and value of the first entry no other entry beats, skipping NaN
(`none`) cells, and `none` when every cell is NaN.  With `r = (· < ·)` this
is `idxmax` (line 146), with the flipped order it is `idxmin` (line 147):
pandas documents both as "the first row label" of the extremum, with NaN
excluded by `skipna=True`.  `argStep` folds one cell into the best
(position, value) seen so far among the cells to its right; positions are
shifted as the cell is prepended. -/
def argStep (r : ℚ → ℚ → Prop) [DecidableRel r] (x : Option ℚ)
    (acc : Option (Nat × ℚ)) : Option (Nat × ℚ) :=
  match acc, x with
  | none, none => none
  | none, some v => some (0, v)
  | some jm, none => some (jm.1 + 1, jm.2)
  | some jm, some v => if r v jm.2 then some (jm.1 + 1, jm.2) else some (0, v)

def argExtr (r : ℚ → ℚ → Prop) [DecidableRel r] : List (Option ℚ) → Option (Nat × ℚ)
  | [] => none
  | x :: rest => argStep r x (argExtr r rest)

/-- `df["1Y Return %"].idxmax()` (line 146), positionally. -/
def idxmaxQ (xs : List (Option ℚ)) : Option (Nat × ℚ) :=
  argExtr (fun a b => a < b) xs

/-- `df["1Y Return %"].idxmin()` (line 147), positionally. -/
def idxminQ (xs : List (Option ℚ)) : Option (Nat × ℚ) :=
  argExtr (fun a b => b < a) xs

/-- The best/worst selection of lines 146-147 on the return column:
the positions `df.loc[...]` reads back, or the pandas `ValueError` when
`idxmax` finds only NaN cells. -/
def aggregateReturns (rets : List (Option ℚ)) : Except AggError (Nat × Nat) :=
  match idxmaxQ rets, idxminQ rets with
  | some im, some jm => .ok (im.1, jm.1)
  | _, _ => .error .argmaxEmpty

/-- Lines 146-147 applied to the collected records: the "1Y Return %"
column of `pd.DataFrame(results)` is the `returnPct` of each record (never
NaN for records the script itself produced). -/
def bestWorst (records : List Analysis) : Except AggError (Nat × Nat) :=
  aggregateReturns (records.map (fun r => some r.returnPct))

/-- A record carrying only the fields best/worst selection reads (symbol
and return); the other metrics are irrelevant to lines 146-147. -/
def mkRecord (s : String) (ret : ℚ) : Analysis :=
  { ticker := s, latestPrice := 0, startPrice := 0, highestPrice := 0,
    lowestPrice := 0, returnPct := ret, volatilityPct := none,
    priceRange := 0, ma50 := none, ma200 := none,
    trend := .insufficientData }

/-- The specification's tied-maximum example: returns 5, 10, 10. -/
def exampleA : List Analysis :=
  [mkRecord "A" 5, mkRecord "B" 10, mkRecord "C" 10]

/-- The specification's tied-minimum example: returns -2, -2, 1. -/
def exampleB : List Analysis :=
  [mkRecord "A" (-2), mkRecord "B" (-2), mkRecord "C" 1]

/-- The return of the record at position `k` (out-of-range positions read a
dummy record; every use is guarded by a length bound). -/
def retOf (records : List Analysis) (k : Nat) : ℚ :=
  (records.getD k (mkRecord "" 0)).returnPct

/-- The last `k` elements of a list — "the last 50 closes" of the
specification (§4.1). -/
def lastN (k : Nat) (l : List ℚ) : List ℚ := l.drop (l.length - k)

/-- The specification's daily returns (§4.1): for i = 1..n-1,
`dailyReturn[i] = (close[i] - close[i-1]) / close[i-1]`, nothing for
i = 0. -/
def specDailyReturns (l : List ℚ) : List ℚ :=
  (l.zip l.tail).map (fun p => (p.2 - p.1) / p.1)

/-- The specification's volatility (§4.1): the Bessel-corrected sample
standard deviation of the daily returns, NaN (`none`) with fewer than 2 of
them, scaled by 100. -/
noncomputable def specVolatility (l : List ℚ) : Option ℝ :=
  let d := specDailyReturns l
  if d.length < 2 then none else some (Real.sqrt ((sampleVar d : ℚ) : ℝ) * 100)

/-! ## Basic facts about the embedded functions -/

theorem buildAnalysis_trend (t : String) (df : List Row) :
    (buildAnalysis t df).trend =
      trendOf ((df.map Row.close).getLastD 0)
        (buildAnalysis t df).ma50 (buildAnalysis t df).ma200 := rfl

theorem buildAnalysis_ma50 (t : String) (df : List Row) :
    (buildAnalysis t df).ma50 =
      if 50 ≤ df.length then (rollingMean 50 (df.map Row.close)).getLastD none
      else none := rfl

theorem buildAnalysis_ma200 (t : String) (df : List Row) :
    (buildAnalysis t df).ma200 =
      if 200 ≤ df.length then (rollingMean 200 (df.map Row.close)).getLastD none
      else none := rfl

theorem buildAnalysis_latestPrice (t : String) (df : List Row) :
    (buildAnalysis t df).latestPrice = (df.map Row.close).getLastD 0 := rfl

theorem buildAnalysis_startPrice (t : String) (df : List Row) :
    (buildAnalysis t df).startPrice = (df.map Row.close).headD 0 := rfl

theorem buildAnalysis_returnPct (t : String) (df : List Row) :
    (buildAnalysis t df).returnPct =
      ((df.map Row.close).getLastD 0 - (df.map Row.close).headD 0) /
        (df.map Row.close).headD 0 * 100 := rfl

theorem buildAnalysis_volatilityPct (t : String) (df : List Row) :
    (buildAnalysis t df).volatilityPct =
      (seriesStd (pctChange (df.map Row.close))).map (fun s => s * 100) := rfl

/-- Successful analysis: a nonempty cleaned frame with a nonzero first
close passes both guards and yields the computed record. -/
theorem analyzeCleaned_eq_ok (t : String) (df : List Row) (h1 : df ≠ [])
    (h2 : (df.map Row.close).headD 0 ≠ 0) :
    analyzeCleaned t df = .ok (buildAnalysis t df) := by
  unfold analyzeCleaned
  rw [if_neg h1, if_neg h2]

/-- Inversion: a successful analysis means both guards passed and the
record is the computed one. -/
theorem analyzeCleaned_ok_inv {t : String} {df : List Row} {r : Analysis}
    (h : analyzeCleaned t df = .ok r) :
    df ≠ [] ∧ (df.map Row.close).headD 0 ≠ 0 ∧ r = buildAnalysis t df := by
  unfold analyzeCleaned at h
  split_ifs at h with h1 h2
  injection h with h3
  exact ⟨h1, h2, h3.symm⟩

/-- A missing 200-day average forces the INSUFFICIENT_DATA label, whatever
the 50-day average is. -/
theorem trendOf_none_right (latest : ℚ) (m50 : Option ℚ) :
    trendOf latest m50 none = .insufficientData := by
  cases m50 <;> rfl

/-- The three labels of the both-averages-present branch, characterized by
the comparisons of lines 39-47. -/
theorem trendOf_some_some (latest a b : ℚ) :
    (trendOf latest (some a) (some b) = .bullish ↔ latest > a ∧ a > b) ∧
    (trendOf latest (some a) (some b) = .neutral ↔ latest > a ∧ ¬a > b) ∧
    (trendOf latest (some a) (some b) = .bearish ↔ latest ≤ a) := by
  have e : trendOf latest (some a) (some b) =
      if latest > a ∧ a > b then .bullish
      else if latest > a then .neutral else .bearish := rfl
  rw [e]
  split_ifs with h1 h2
  · refine ⟨by simp [h1], ?_, ?_⟩
    · simp only [iff_false_intro (by simp : Trend.bullish ≠ Trend.neutral), false_iff]
      intro hc
      exact hc.2 h1.2
    · simp only [iff_false_intro (by simp : Trend.bullish ≠ Trend.bearish), false_iff]
      exact not_le.mpr h1.1
  · refine ⟨?_, ?_, ?_⟩
    · simp only [iff_false_intro (by simp : Trend.neutral ≠ Trend.bullish), false_iff]
      exact h1
    · simp only [true_iff, iff_true_intro rfl]
      exact ⟨h2, fun hb => h1 ⟨h2, hb⟩⟩
    · simp only [iff_false_intro (by simp : Trend.neutral ≠ Trend.bearish), false_iff]
      exact not_le.mpr h2
  · refine ⟨?_, ?_, ?_⟩
    · simp only [iff_false_intro (by simp : Trend.bearish ≠ Trend.bullish), false_iff]
      exact fun hc => h2 hc.1
    · simp only [iff_false_intro (by simp : Trend.bearish ≠ Trend.neutral), false_iff]
      exact fun hc => h2 hc.1
    · simp only [true_iff, iff_true_intro rfl]
      exact not_lt.mp h2

/-- Dropping the NaN cells of `pct_change` leaves exactly the
specification's daily returns (the relative changes of consecutive
closes). -/
theorem pctChangeAux_filterMap (rest : List ℚ) :
    ∀ prev, (pctChangeAux prev rest).filterMap id =
      ((prev :: rest).zip rest).map (fun p => (p.2 - p.1) / p.1) := by
  induction rest with
  | nil => intro prev; rfl
  | cons c rest ih =>
    intro prev
    simp only [pctChangeAux, List.filterMap_cons, id, List.zip_cons_cons, List.map_cons]
    rw [ih c]

theorem pctChange_filterMap (l : List ℚ) :
    (pctChange l).filterMap id = specDailyReturns l := by
  cases l with
  | nil => rfl
  | cons c rest =>
    simp only [pctChange, List.filterMap_cons, id, specDailyReturns, List.tail_cons]
    exact pctChangeAux_filterMap rest c

/-- The volatility pipeline of lines 32-33 (`pct_change` then `std()` then
`* 100`) equals the specification's volatility formula. -/
theorem volatility_eq_spec (l : List ℚ) :
    (seriesStd (pctChange l)).map (fun s => s * 100) = specVolatility l := by
  by_cases h : (specDailyReturns l).length < 2
  · simp [seriesStd, specVolatility, pctChange_filterMap, h]
  · simp [seriesStd, specVolatility, pctChange_filterMap, h]

/-- The last entry of a full rolling mean (`.iloc[-1]` at lines 35-36) is
the arithmetic mean of the last `w` closes. -/
theorem rollingMean_getLast (w : Nat) (l : List ℚ) (hw : 1 ≤ w) (hl : w ≤ l.length) :
    (rollingMean w l).getLastD none = some (listMean (lastN w l)) := by
  obtain ⟨m, hm⟩ : ∃ m, l.length = m + 1 := ⟨l.length - 1, by omega⟩
  have hw2 : w ≤ m + 1 := by omega
  unfold rollingMean lastN
  rw [hm, List.range_succ m, List.map_append, List.map_cons, List.map_nil,
    List.getLastD_eq_getLast?, List.getLast?_concat, Option.getD_some, if_pos hw2,
    ← hm, List.take_length l]

/-- `getD` over an all-NaN column is NaN at every position. -/
theorem getD_eq_none_of_forall {xs : List (Option ℚ)} (h : ∀ x ∈ xs, x = none)
    (k : Nat) : xs.getD k none = none := by
  rw [List.getD_eq_getElem?_getD]
  cases hx : xs[k]? with
  | none => rfl
  | some a => rw [h a (List.getElem?_mem hx)]; rfl

/-- The scan returns nothing exactly when every cell is NaN (the all-NaN
`ValueError` situation of pandas `idxmax`). -/
theorem argExtr_eq_none_iff (r : ℚ → ℚ → Prop) [DecidableRel r] :
    ∀ xs : List (Option ℚ), (argExtr r xs = none ↔ ∀ x ∈ xs, x = none) := by
  intro xs
  induction xs with
  | nil => simp [argExtr]
  | cons x rest ih =>
    simp only [argExtr]
    cases hrest : argExtr r rest with
    | none =>
      cases x with
      | none => simp [argStep, List.forall_mem_cons, ← ih, hrest]
      | some v => simp [argStep]
    | some jm =>
      cases x with
      | none => simp [argStep, List.forall_mem_cons, ← ih, hrest]
      | some v =>
        simp only [argStep]
        split <;> simp

/-- Correctness of the `idxmax`/`idxmin`-style scan for any strict
comparison that is asymmetric and negatively transitive: the returned
position holds the returned value, no cell beats that value, and every
earlier cell is strictly beaten by it (so the returned position is the
first one attaining the extremum). -/
theorem argExtr_spec (r : ℚ → ℚ → Prop) [DecidableRel r]
    (hasymm : ∀ a b, r a b → ¬r b a)
    (hneg : ∀ a b c, ¬r a b → ¬r b c → ¬r a c) :
    ∀ (xs : List (Option ℚ)) (i : Nat) (m : ℚ), argExtr r xs = some (i, m) →
      xs.getD i none = some m ∧
      (∀ k v, xs.getD k none = some v → ¬r m v) ∧
      (∀ k, k < i → ∀ v, xs.getD k none = some v → r v m) := by
  have hirr : ∀ a, ¬r a a := fun a ha => hasymm a a ha ha
  intro xs
  induction xs with
  | nil => intro i m h; exact absurd h (by simp [argExtr])
  | cons x rest ih =>
    intro i m h
    simp only [argExtr] at h
    cases hrest : argExtr r rest with
    | none =>
      rw [hrest] at h
      have hall : ∀ y ∈ rest, y = none := (argExtr_eq_none_iff r rest).mp hrest
      cases x with
      | none => simp [argStep] at h
      | some v =>
        simp only [argStep, Option.some.injEq, Prod.mk.injEq] at h
        obtain ⟨rfl, rfl⟩ := h
        refine ⟨rfl, ?_, ?_⟩
        · intro k v' hk
          cases k with
          | zero =>
            rw [List.getD_cons_zero, Option.some.injEq] at hk
            rw [← hk]
            exact hirr v
          | succ k =>
            rw [List.getD_cons_succ, getD_eq_none_of_forall hall] at hk
            exact absurd hk (by simp)
        · intro k hk
          omega
    | some jm =>
      rw [hrest] at h
      obtain ⟨j, mr⟩ := jm
      obtain ⟨hget, hbound, hfirst⟩ := ih j mr hrest
      cases x with
      | none =>
        simp only [argStep, Option.some.injEq, Prod.mk.injEq] at h
        obtain ⟨rfl, rfl⟩ := h
        refine ⟨by rw [List.getD_cons_succ]; exact hget, ?_, ?_⟩
        · intro k v' hk
          cases k with
          | zero => rw [List.getD_cons_zero] at hk; exact absurd hk (by simp)
          | succ k => rw [List.getD_cons_succ] at hk; exact hbound k v' hk
        · intro k hk v' hk2
          cases k with
          | zero => rw [List.getD_cons_zero] at hk2; exact absurd hk2 (by simp)
          | succ k =>
            rw [List.getD_cons_succ] at hk2
            exact hfirst k (by omega) v' hk2
      | some v =>
        simp only [argStep] at h
        split_ifs at h with hr
        · simp only [Option.some.injEq, Prod.mk.injEq] at h
          obtain ⟨rfl, rfl⟩ := h
          refine ⟨by rw [List.getD_cons_succ]; exact hget, ?_, ?_⟩
          · intro k v' hk
            cases k with
            | zero =>
              rw [List.getD_cons_zero, Option.some.injEq] at hk
              rw [← hk]
              exact hasymm v mr hr
            | succ k => rw [List.getD_cons_succ] at hk; exact hbound k v' hk
          · intro k hk v' hk2
            cases k with
            | zero =>
              rw [List.getD_cons_zero, Option.some.injEq] at hk2
              rw [← hk2]
              exact hr
            | succ k =>
              rw [List.getD_cons_succ] at hk2
              exact hfirst k (by omega) v' hk2
        · simp only [Option.some.injEq, Prod.mk.injEq] at h
          obtain ⟨rfl, rfl⟩ := h
          refine ⟨rfl, ?_, ?_⟩
          · intro k v' hk
            cases k with
            | zero =>
              rw [List.getD_cons_zero, Option.some.injEq] at hk
              rw [← hk]
              exact hirr v
            | succ k =>
              rw [List.getD_cons_succ] at hk
              exact hneg v mr v' hr (hbound k v' hk)
          · intro k hk
            omega

/-- `getD` into the return column built from a record list, in range. -/
theorem getD_map_ret (records : List Analysis) (k : Nat) (hk : k < records.length) :
    (records.map (fun rec => some rec.returnPct)).getD k none =
      some (retOf records k) := by
  rw [List.getD_eq_getElem?_getD, List.getElem?_map, retOf, List.getD_eq_getElem?_getD,
    List.getElem?_eq_getElem hk]
  rfl

/-- `getD` into the return column built from a record list, out of range. -/
theorem getD_map_ret_none (records : List Analysis) (k : Nat)
    (hk : records.length ≤ k) :
    (records.map (fun rec => some rec.returnPct)).getD k none = none := by
  rw [List.getD_eq_getElem?_getD, List.getElem?_eq_none (by simpa using hk)]
  rfl

/-! ## The claims -/

/-- Claim C1: the trend label is a pure function of
(latestPrice, ma50, ma200); it is INSUFFICIENT_DATA whenever ma200 is
absent (regardless of ma50), and with both averages present it is BULLISH
iff latest > ma50 and ma50 > ma200, NEUTRAL iff latest > ma50 and not
ma50 > ma200, and BEARISH iff latest <= ma50. -/
theorem c1_trend_pure_function (t : String) (df : List Row) (r : Analysis)
    (h : analyzeCleaned t df = .ok r) :
    r.trend = trendOf r.latestPrice r.ma50 r.ma200 ∧
    (r.ma200 = none → r.trend = .insufficientData) ∧
    (∀ m50 m200, r.ma50 = some m50 → r.ma200 = some m200 →
      ((r.trend = .bullish ↔ r.latestPrice > m50 ∧ m50 > m200) ∧
       (r.trend = .neutral ↔ r.latestPrice > m50 ∧ ¬m50 > m200) ∧
       (r.trend = .bearish ↔ r.latestPrice ≤ m50))) := by
  obtain ⟨h1, h2, rfl⟩ := analyzeCleaned_ok_inv h
  refine ⟨rfl, ?_, ?_⟩
  · intro hma
    rw [buildAnalysis_trend, hma]
    exact trendOf_none_right _ _
  · intro m50 m200 h50 h200
    rw [buildAnalysis_trend, h50, h200]
    exact trendOf_some_some ((buildAnalysis t df).latestPrice) m50 m200

/-- Witness for C1 at the concrete one-row series High 5, Low 3, Close 4. -/
theorem c1_trend_pure_function_witness :
    analyzeCleaned "X" [⟨5, 3, 4⟩] = .ok (buildAnalysis "X" [⟨5, 3, 4⟩]) ∧
    ((buildAnalysis "X" [⟨5, 3, 4⟩]).trend =
        trendOf (buildAnalysis "X" [⟨5, 3, 4⟩]).latestPrice
          (buildAnalysis "X" [⟨5, 3, 4⟩]).ma50 (buildAnalysis "X" [⟨5, 3, 4⟩]).ma200 ∧
      ((buildAnalysis "X" [⟨5, 3, 4⟩]).ma200 = none →
        (buildAnalysis "X" [⟨5, 3, 4⟩]).trend = .insufficientData) ∧
      (∀ m50 m200, (buildAnalysis "X" [⟨5, 3, 4⟩]).ma50 = some m50 →
        (buildAnalysis "X" [⟨5, 3, 4⟩]).ma200 = some m200 →
        (((buildAnalysis "X" [⟨5, 3, 4⟩]).trend = .bullish ↔
            (buildAnalysis "X" [⟨5, 3, 4⟩]).latestPrice > m50 ∧ m50 > m200) ∧
         ((buildAnalysis "X" [⟨5, 3, 4⟩]).trend = .neutral ↔
            (buildAnalysis "X" [⟨5, 3, 4⟩]).latestPrice > m50 ∧ ¬m50 > m200) ∧
         ((buildAnalysis "X" [⟨5, 3, 4⟩]).trend = .bearish ↔
            (buildAnalysis "X" [⟨5, 3, 4⟩]).latestPrice ≤ m50)))) :=
  have hok : analyzeCleaned "X" [⟨5, 3, 4⟩] = .ok (buildAnalysis "X" [⟨5, 3, 4⟩]) :=
    analyzeCleaned_eq_ok _ _ (by simp) (by decide)
  ⟨hok, c1_trend_pure_function "X" [⟨5, 3, 4⟩] _ hok⟩

/-- Claim C2: ma50 is present iff the series has at least 50 rows and then
equals the arithmetic mean of the last 50 closes; ma200 likewise with 200;
otherwise the field is absent (`none`, i.e. the Python `None` of lines
79-80 — not zero and not a NaN payload). -/
theorem c2_moving_average_presence (t : String) (df : List Row) (r : Analysis)
    (h : analyzeCleaned t df = .ok r) :
    ((50 ≤ df.length → r.ma50 = some (listMean (lastN 50 (df.map Row.close)))) ∧
     (df.length < 50 → r.ma50 = none)) ∧
    ((200 ≤ df.length → r.ma200 = some (listMean (lastN 200 (df.map Row.close)))) ∧
     (df.length < 200 → r.ma200 = none)) := by
  obtain ⟨h1, h2, rfl⟩ := analyzeCleaned_ok_inv h
  refine ⟨⟨?_, ?_⟩, ⟨?_, ?_⟩⟩
  · intro h50
    rw [buildAnalysis_ma50, if_pos h50]
    exact rollingMean_getLast 50 _ (by omega) (by simpa using h50)
  · intro h50
    rw [buildAnalysis_ma50, if_neg (by omega)]
  · intro h200
    rw [buildAnalysis_ma200, if_pos h200]
    exact rollingMean_getLast 200 _ (by omega) (by simpa using h200)
  · intro h200
    rw [buildAnalysis_ma200, if_neg (by omega)]

/-- Witness for C2 at a one-row series: both averages are absent. -/
theorem c2_moving_average_presence_witness :
    analyzeCleaned "X" [⟨5, 3, 4⟩] = .ok (buildAnalysis "X" [⟨5, 3, 4⟩]) ∧
    (((50 ≤ ([⟨5, 3, 4⟩] : List Row).length →
        (buildAnalysis "X" [⟨5, 3, 4⟩]).ma50 =
          some (listMean (lastN 50 (([⟨5, 3, 4⟩] : List Row).map Row.close)))) ∧
      (([⟨5, 3, 4⟩] : List Row).length < 50 →
        (buildAnalysis "X" [⟨5, 3, 4⟩]).ma50 = none)) ∧
     ((200 ≤ ([⟨5, 3, 4⟩] : List Row).length →
        (buildAnalysis "X" [⟨5, 3, 4⟩]).ma200 =
          some (listMean (lastN 200 (([⟨5, 3, 4⟩] : List Row).map Row.close)))) ∧
      (([⟨5, 3, 4⟩] : List Row).length < 200 →
        (buildAnalysis "X" [⟨5, 3, 4⟩]).ma200 = none))) :=
  have hok : analyzeCleaned "X" [⟨5, 3, 4⟩] = .ok (buildAnalysis "X" [⟨5, 3, 4⟩]) :=
    analyzeCleaned_eq_ok _ _ (by simp) (by decide)
  ⟨hok, c2_moving_average_presence "X" [⟨5, 3, 4⟩] _ hok⟩

/-- Claim C3, counterexample to the claim as stated: on the one-row series
with close 0 the analysis fails, but the failure is the builtin
`ZeroDivisionError` of the division at line 31, not the typed
`InvalidSeriesError` the claim names (the script defines no such error
class). -/
theorem c3_counterexample :
    analyzeCleaned "X" [⟨1, 1, 0⟩] = .error .zeroDivision ∧
    AnalyzeError.zeroDivision ≠ AnalyzeError.invalidSeries := by
  constructor
  · unfold analyzeCleaned
    rw [if_neg (by simp), if_pos (by decide)]
  · decide

/-- Claim C3 as amended: for every cleaned series with at least one row,
the analysis fails iff the first close (startPrice) is zero, the only
failure is the builtin `ZeroDivisionError` raised by the return
computation itself (no typed `InvalidSeriesError` exists in the code), and
with a nonzero first close the analysis never raises. -/
theorem c3_zero_start_division (t : String) (df : List Row) (h0 : df ≠ []) :
    ((df.map Row.close).headD 0 = 0 → analyzeCleaned t df = .error .zeroDivision) ∧
    ((df.map Row.close).headD 0 ≠ 0 →
      analyzeCleaned t df = .ok (buildAnalysis t df)) ∧
    (∀ e, analyzeCleaned t df = .error e → e = .zeroDivision) := by
  refine ⟨?_, ?_, ?_⟩
  · intro hz
    unfold analyzeCleaned
    rw [if_neg h0, if_pos hz]
  · intro hnz
    exact analyzeCleaned_eq_ok t df h0 hnz
  · intro e he
    by_cases hz : (df.map Row.close).headD 0 = 0
    · unfold analyzeCleaned at he
      rw [if_neg h0, if_pos hz] at he
      injection he with he2
      exact he2.symm
    · rw [analyzeCleaned_eq_ok t df h0 hz] at he
      exact absurd he (by simp)

/-- Witness for the amended C3 at the one-row series with close 0. -/
theorem c3_zero_start_division_witness :
    ([(⟨1, 1, 0⟩ : Row)] ≠ []) ∧
    (((([⟨1, 1, 0⟩] : List Row).map Row.close).headD 0 = 0 →
        analyzeCleaned "X" [⟨1, 1, 0⟩] = .error .zeroDivision) ∧
     ((([⟨1, 1, 0⟩] : List Row).map Row.close).headD 0 ≠ 0 →
        analyzeCleaned "X" [⟨1, 1, 0⟩] = .ok (buildAnalysis "X" [⟨1, 1, 0⟩])) ∧
     (∀ e, analyzeCleaned "X" [⟨1, 1, 0⟩] = .error e → e = .zeroDivision)) :=
  ⟨by decide, c3_zero_start_division "X" [⟨1, 1, 0⟩] (by decide)⟩

/-- Claim C5: for every cleaned series (with nonzero closes, so that every
daily-return float is finite), the computed volatility equals the
specification's: the Bessel-corrected sample standard deviation of the
daily returns (close[i] - close[i-1]) / close[i-1], i = 1..n-1, scaled by
100, and NaN (`none`) when there are fewer than 2 daily returns. -/
theorem c5_volatility_is_spec_std (t : String) (df : List Row) (r : Analysis)
    (h : analyzeCleaned t df = .ok r)
    (hnz : ∀ c ∈ df.map Row.close, c ≠ 0) :
    r.volatilityPct = specVolatility (df.map Row.close) := by
  obtain ⟨h1, h2, rfl⟩ := analyzeCleaned_ok_inv h
  rw [buildAnalysis_volatilityPct]
  exact volatility_eq_spec _

/-- Witness for C5 at the one-row series (volatility NaN on both sides). -/
theorem c5_volatility_is_spec_std_witness :
    analyzeCleaned "X" [⟨5, 3, 4⟩] = .ok (buildAnalysis "X" [⟨5, 3, 4⟩]) ∧
    (∀ c ∈ ([⟨5, 3, 4⟩] : List Row).map Row.close, c ≠ 0) ∧
    (buildAnalysis "X" [⟨5, 3, 4⟩]).volatilityPct =
      specVolatility (([⟨5, 3, 4⟩] : List Row).map Row.close) :=
  have hok : analyzeCleaned "X" [⟨5, 3, 4⟩] = .ok (buildAnalysis "X" [⟨5, 3, 4⟩]) :=
    analyzeCleaned_eq_ok _ _ (by simp) (by decide)
  ⟨hok, by decide, c5_volatility_is_spec_std "X" [⟨5, 3, 4⟩] _ hok (by decide)⟩

/-- Claim C9: with a successful analysis (nonzero start price), equal
latest and start price give a zero percentage return. -/
theorem c9_return_roundtrip (t : String) (df : List Row) (r : Analysis)
    (h : analyzeCleaned t df = .ok r) (heq : r.latestPrice = r.startPrice) :
    r.returnPct = 0 := by
  obtain ⟨h1, h2, rfl⟩ := analyzeCleaned_ok_inv h
  rw [buildAnalysis_returnPct]
  rw [buildAnalysis_latestPrice, buildAnalysis_startPrice] at heq
  rw [heq, sub_self, zero_div, zero_mul]

/-- Witness for C9 at the one-row series (latest = start = 4). -/
theorem c9_return_roundtrip_witness :
    analyzeCleaned "X" [⟨5, 3, 4⟩] = .ok (buildAnalysis "X" [⟨5, 3, 4⟩]) ∧
    (buildAnalysis "X" [⟨5, 3, 4⟩]).latestPrice =
      (buildAnalysis "X" [⟨5, 3, 4⟩]).startPrice ∧
    (buildAnalysis "X" [⟨5, 3, 4⟩]).returnPct = 0 :=
  have hok : analyzeCleaned "X" [⟨5, 3, 4⟩] = .ok (buildAnalysis "X" [⟨5, 3, 4⟩]) :=
    analyzeCleaned_eq_ok _ _ (by simp) (by decide)
  ⟨hok, rfl, c9_return_roundtrip "X" [⟨5, 3, 4⟩] _ hok rfl⟩

/-- Claim C10: a cleaned series of exactly one row with nonzero close
analyzes successfully to return 0, NaN volatility, absent moving averages,
INSUFFICIENT_DATA trend, latest = start = the close, highest = the high,
lowest = the low (and price range high - low). -/
theorem c10_singleton_series (t : String) (h l c : ℚ) (hc : c ≠ 0) :
    analyzeCleaned t [⟨h, l, c⟩] =
      .ok { ticker := t, latestPrice := c, startPrice := c, highestPrice := h,
            lowestPrice := l, returnPct := 0, volatilityPct := none,
            priceRange := h - l, ma50 := none, ma200 := none,
            trend := .insufficientData } := by
  rw [analyzeCleaned_eq_ok t [⟨h, l, c⟩] (by simp) (by simpa using hc)]
  unfold buildAnalysis
  simp [pctChange, pctChangeAux, seriesStd, trendOf, sub_self]

/-- Witness for C10 at High 5, Low 3, Close 4. -/
theorem c10_singleton_series_witness :
    (4 : ℚ) ≠ 0 ∧
    analyzeCleaned "X" [⟨5, 3, 4⟩] =
      .ok { ticker := "X", latestPrice := 4, startPrice := 4, highestPrice := 5,
            lowestPrice := 3, returnPct := 0, volatilityPct := none,
            priceRange := 5 - 3, ma50 := none, ma200 := none,
            trend := .insufficientData } :=
  ⟨by decide, c10_singleton_series "X" 5 3 4 (by decide)⟩

/-- Claim C6: rows lacking a close are filtered out before any metric is
computed (the analysis only ever sees `cleanRows data`), and when the
filtering empties the series the dedicated empty-series error of line 18 is
raised instead of a crash at the `iloc[-1]` accesses. -/
theorem c6_filter_before_metrics (t : String) (data : List RawRow)
    (h0 : data ≠ []) :
    (cleanRows data = [] → analyzeTicker t data = .error .emptySeries) ∧
    (cleanRows data ≠ [] → analyzeTicker t data = analyzeCleaned t (cleanRows data)) := by
  constructor
  · intro hcl
    unfold analyzeTicker safeDownload
    rw [if_neg h0]
    simp [hcl, Except.bind]
  · intro hcl
    unfold analyzeTicker safeDownload
    rw [if_neg h0]
    simp [hcl, Except.bind]

/-- Witness for C6: a single raw row with a missing close filters to the
empty series and yields the empty-series error. -/
theorem c6_filter_before_metrics_witness :
    ([(⟨1, 2, none⟩ : RawRow)] ≠ []) ∧
    ((cleanRows [⟨1, 2, none⟩] = [] →
        analyzeTicker "X" [⟨1, 2, none⟩] = .error .emptySeries) ∧
     (cleanRows [⟨1, 2, none⟩] ≠ [] →
        analyzeTicker "X" [⟨1, 2, none⟩] =
          analyzeCleaned "X" (cleanRows [⟨1, 2, none⟩]))) :=
  ⟨by decide, c6_filter_before_metrics "X" [⟨1, 2, none⟩] (by decide)⟩

/-- Claim C7: the per-symbol loop isolates failures.  For any data source
and any ticker list, the loop returns exactly the successful records (in
order) and, separately, one `(symbol, str(e))` failure pair per failed
symbol (in order): a failure is converted at the per-symbol boundary, does
not abort the remaining symbols, and never enters the success
collection. -/
theorem c7_per_symbol_isolation (dataOf : String → List RawRow)
    (ts : List String) :
    processTickers dataOf ts =
      (ts.filterMap (fun t => (analyzeTicker t (dataOf t)).toOption),
       ts.filterMap (fun t =>
         match analyzeTicker t (dataOf t) with
         | .ok _ => none
         | .error e => some (t, errMessage e))) := by
  induction ts with
  | nil => rfl
  | cons t rest ih =>
    simp only [processTickers, List.filterMap_cons, ih]
    cases hr : analyzeTicker t (dataOf t) with
    | ok r => simp [Except.toOption, hr]
    | error e => simp [Except.toOption, hr]

/-- Claim C4: best/worst selection.  In general the selected best position
holds the maximum return and every earlier position a strictly smaller
return (first of the tied maximum), dually for the worst; and on the
specification's two concrete examples the selection is B (position 1) as
best over returns [5, 10, 10] and A (position 0) as worst over
[-2, -2, 1]. -/
theorem c4_best_worst_first_of_ties :
    (∀ records : List Analysis, records ≠ [] →
      ∃ i j, bestWorst records = .ok (i, j) ∧
        i < records.length ∧ j < records.length ∧
        (∀ k, k < records.length → retOf records k ≤ retOf records i) ∧
        (∀ k, k < i → retOf records k < retOf records i) ∧
        (∀ k, k < records.length → retOf records j ≤ retOf records k) ∧
        (∀ k, k < j → retOf records j < retOf records k)) ∧
    bestWorst exampleA = .ok (1, 0) ∧ bestWorst exampleB = .ok (2, 0) := by
  refine ⟨?_, by rfl, by rfl⟩
  intro records hne
  have hnotall : ¬ ∀ x ∈ records.map (fun rec => some rec.returnPct), x = none := by
    intro hall
    cases records with
    | nil => exact hne rfl
    | cons r0 rest =>
      exact absurd
        (hall _ (List.mem_map_of_mem _ (List.mem_cons_self r0 rest))) (by simp)
  cases hmax : idxmaxQ (records.map (fun rec => some rec.returnPct)) with
  | none => exact absurd ((argExtr_eq_none_iff _ _).mp hmax) hnotall
  | some im =>
  cases hmin : idxminQ (records.map (fun rec => some rec.returnPct)) with
  | none => exact absurd ((argExtr_eq_none_iff _ _).mp hmin) hnotall
  | some jm =>
  obtain ⟨i, mi⟩ := im
  obtain ⟨j, mj⟩ := jm
  have hmax2 : argExtr (fun a b => a < b)
      (records.map (fun rec => some rec.returnPct)) = some (i, mi) := hmax
  have hmin2 : argExtr (fun a b => b < a)
      (records.map (fun rec => some rec.returnPct)) = some (j, mj) := hmin
  obtain ⟨hgetI, hboundI, hfirstI⟩ :=
    argExtr_spec (fun a b => a < b) (fun a b => lt_asymm)
      (fun a b c hab hbc => not_lt.mpr (le_trans (not_lt.mp hbc) (not_lt.mp hab)))
      (records.map (fun rec => some rec.returnPct)) i mi hmax2
  obtain ⟨hgetJ, hboundJ, hfirstJ⟩ :=
    argExtr_spec (fun a b => b < a) (fun a b h => lt_asymm h)
      (fun a b c hab hbc => not_lt.mpr (le_trans (not_lt.mp hab) (not_lt.mp hbc)))
      (records.map (fun rec => some rec.returnPct)) j mj hmin2
  have hilen : i < records.length := by
    by_contra hge
    rw [getD_map_ret_none records i (by omega)] at hgetI
    exact absurd hgetI (by simp)
  have hjlen : j < records.length := by
    by_contra hge
    rw [getD_map_ret_none records j (by omega)] at hgetJ
    exact absurd hgetJ (by simp)
  have hmi : mi = retOf records i := by
    rw [getD_map_ret records i hilen] at hgetI
    injection hgetI with h2
    exact h2.symm
  have hmj : mj = retOf records j := by
    rw [getD_map_ret records j hjlen] at hgetJ
    injection hgetJ with h2
    exact h2.symm
  refine ⟨i, j, ?_, hilen, hjlen, ?_, ?_, ?_, ?_⟩
  · unfold bestWorst aggregateReturns
    rw [hmax, hmin]
  · intro k hk
    have := hboundI k (retOf records k) (getD_map_ret records k hk)
    rw [hmi] at this
    exact not_lt.mp this
  · intro k hk
    have := hfirstI k hk (retOf records k) (getD_map_ret records k (by omega))
    rw [hmi] at this
    exact this
  · intro k hk
    have := hboundJ k (retOf records k) (getD_map_ret records k hk)
    rw [hmj] at this
    exact not_lt.mp this
  · intro k hk
    have := hfirstJ k hk (retOf records k) (getD_map_ret records k (by omega))
    rw [hmj] at this
    exact this

/-- Witness for C4's general part applied to the tied-maximum example. -/
theorem c4_best_worst_first_of_ties_witness :
    exampleA ≠ [] ∧
    (∃ i j, bestWorst exampleA = .ok (i, j) ∧
      i < exampleA.length ∧ j < exampleA.length ∧
      (∀ k, k < exampleA.length → retOf exampleA k ≤ retOf exampleA i) ∧
      (∀ k, k < i → retOf exampleA k < retOf exampleA i) ∧
      (∀ k, k < exampleA.length → retOf exampleA j ≤ retOf exampleA k) ∧
      (∀ k, k < j → retOf exampleA j < retOf exampleA k)) :=
  ⟨by simp [exampleA], c4_best_worst_first_of_ties.1 exampleA (by simp [exampleA])⟩

/-- Claim C8, counterexample to the claim as stated: with every return NaN
the aggregation does fail, but with the pandas `ValueError` of `idxmax`
over an all-NaN column, not with a typed `DegenerateMetricError` (the
script defines no such error class). -/
theorem c8_counterexample :
    aggregateReturns [none] = .error .argmaxEmpty ∧
    AggError.argmaxEmpty ≠ AggError.degenerateMetric := by
  constructor
  · rfl
  · decide

/-- Claim C8 as amended: during best/worst selection over a nonempty return
column, a NaN cell is never selected as best or worst (the selected
positions always hold non-NaN values), the only failure is the pandas
all-NaN `ValueError` of `idxmax` (no typed `DegenerateMetricError`
exists), and the aggregation fails if and only if every return is NaN. -/
theorem c8_nan_never_selected (rets : List (Option ℚ)) (hne : rets ≠ []) :
    ((aggregateReturns rets = .error .argmaxEmpty) ↔ ∀ x ∈ rets, x = none) ∧
    (∀ e, aggregateReturns rets = .error e → e = .argmaxEmpty) ∧
    (∀ i j, aggregateReturns rets = .ok (i, j) →
      rets.getD i none ≠ none ∧ rets.getD j none ≠ none) := by
  by_cases hall : ∀ x ∈ rets, x = none
  · have hmax : idxmaxQ rets = none := (argExtr_eq_none_iff _ rets).mpr hall
    have hmin : idxminQ rets = none := (argExtr_eq_none_iff _ rets).mpr hall
    have hagg : aggregateReturns rets = .error .argmaxEmpty := by
      unfold aggregateReturns
      rw [hmax, hmin]
    refine ⟨⟨fun _ => hall, fun _ => hagg⟩, ?_, ?_⟩
    · intro e he
      rw [hagg] at he
      injection he with h2
      exact h2.symm
    · intro i j hij
      rw [hagg] at hij
      exact absurd hij (by simp)
  · have hmaxne : idxmaxQ rets ≠ none :=
      fun hn => hall ((argExtr_eq_none_iff _ rets).mp hn)
    have hminne : idxminQ rets ≠ none :=
      fun hn => hall ((argExtr_eq_none_iff _ rets).mp hn)
    cases hmax : idxmaxQ rets with
    | none => exact absurd hmax hmaxne
    | some im =>
    cases hmin : idxminQ rets with
    | none => exact absurd hmin hminne
    | some jm =>
    obtain ⟨i0, mi⟩ := im
    obtain ⟨j0, mj⟩ := jm
    obtain ⟨hgetI, hboundI, hfirstI⟩ :=
      argExtr_spec (fun a b => a < b) (fun a b => lt_asymm)
        (fun a b c hab hbc => not_lt.mpr (le_trans (not_lt.mp hbc) (not_lt.mp hab)))
        rets i0 mi hmax
    obtain ⟨hgetJ, hboundJ, hfirstJ⟩ :=
      argExtr_spec (fun a b => b < a) (fun a b h => lt_asymm h)
        (fun a b c hab hbc => not_lt.mpr (le_trans (not_lt.mp hab) (not_lt.mp hbc)))
        rets j0 mj hmin
    have hagg : aggregateReturns rets = .ok (i0, j0) := by
      unfold aggregateReturns
      rw [hmax, hmin]
    refine ⟨⟨?_, fun hc => absurd hc hall⟩, ?_, ?_⟩
    · intro hc
      rw [hagg] at hc
      exact absurd hc (by simp)
    · intro e he
      rw [hagg] at he
      exact absurd he (by simp)
    · intro i j hij
      rw [hagg] at hij
      injection hij with h2
      injection h2 with hi hj
      constructor
      · rw [← hi, hgetI]
        simp
      · rw [← hj, hgetJ]
        simp

/-- Witness for the amended C8 on a column with one NaN and one value. -/
theorem c8_nan_never_selected_witness :
    ([none, some (5 : ℚ)] ≠ ([] : List (Option ℚ))) ∧
    (((aggregateReturns [none, some (5 : ℚ)] = .error .argmaxEmpty) ↔
        ∀ x ∈ [none, some (5 : ℚ)], x = none) ∧
     (∀ e, aggregateReturns [none, some (5 : ℚ)] = .error e → e = .argmaxEmpty) ∧
     (∀ i j, aggregateReturns [none, some (5 : ℚ)] = .ok (i, j) →
        ([none, some (5 : ℚ)].getD i none ≠ none ∧
         [none, some (5 : ℚ)].getD j none ≠ none))) :=
  ⟨by decide, c8_nan_never_selected [none, some (5 : ℚ)] (by decide)⟩
